import Mathlib

/-!
# Singularity command-line flags and the `pull` command

A shallow embedding of

* `internal/pkg/cli/flags/flags.go` (package `sflags`): the package variables, the
  flag set `Flags` and the four `init*Vars` functions that register the flags;
* `src/cmd/singularity/cli/pull.go` (package `cli`): the `Run` function of `PullCmd`.

The flag library (`github.com/spf13/pflag`) and `strings.Split` are not part of the
repository; the fragments the two files use are modelled next to them.
-/

set_option autoImplicit false

namespace sflags

/-! ## Package variables (flags.go, lines 18-46) -/

/-- The package-level flag variables of `flags.go`, one field per variable. -/
structure Vars where
  BindPaths : List String
  HomePath : String
  OverlayPath : String
  ScratchPath : String
  WorkdirPath : String
  PwdPath : String
  ShellPath : String
  Hostname : String
  IsBoot : Bool
  IsFakeroot : Bool
  IsCleanEnv : Bool
  IsContained : Bool
  IsContainAll : Bool
  Nvidia : Bool
  NetNamespace : Bool
  UtsNamespace : Bool
  UserNamespace : Bool
  PidNamespace : Bool
  IpcNamespace : Bool
  AllowSUID : Bool
  KeepPrivs : Bool
  NoPrivs : Bool
  AddCaps : List String
  DropCaps : List String
  deriving DecidableEq, Repr

/-- Go zero values of the package variables, before `init` runs. -/
def Vars.zero : Vars :=
  { BindPaths := [], HomePath := "", OverlayPath := "", ScratchPath := "",
    WorkdirPath := "", PwdPath := "", ShellPath := "", Hostname := "",
    IsBoot := false, IsFakeroot := false, IsCleanEnv := false, IsContained := false,
    IsContainAll := false, Nvidia := false,
    NetNamespace := false, UtsNamespace := false, UserNamespace := false,
    PidNamespace := false, IpcNamespace := false,
    AllowSUID := false, KeepPrivs := false, NoPrivs := false,
    AddCaps := [], DropCaps := [] }

/-- Address of a `string` package variable (`&HomePath`, ...). -/
inductive StringPtr where
  | HomePath | OverlayPath | ScratchPath | WorkdirPath | PwdPath | ShellPath | Hostname
  deriving DecidableEq, Repr

/-- Address of a `bool` package variable (`&IsBoot`, ...). -/
inductive BoolPtr where
  | IsBoot | IsFakeroot | IsCleanEnv | IsContained | IsContainAll | Nvidia
  | NetNamespace | UtsNamespace | UserNamespace | PidNamespace | IpcNamespace
  | AllowSUID | KeepPrivs | NoPrivs
  deriving DecidableEq, Repr

/-- Address of a `[]string` package variable (`&BindPaths`, ...). -/
inductive SlicePtr where
  | BindPaths | AddCaps | DropCaps
  deriving DecidableEq, Repr

/-- Address of any package variable: the storage a flag is bound to. -/
inductive Ptr where
  | str (p : StringPtr)
  | bool (p : BoolPtr)
  | slice (p : SlicePtr)
  deriving DecidableEq, Repr

/-- A typed flag value, as delivered by the textual decoding of the flag library. -/
inductive Value where
  | str (s : String)
  | bool (b : Bool)
  | strs (l : List String)
  deriving DecidableEq, Repr

def Vars.getString (v : Vars) : StringPtr → String
  | .HomePath => v.HomePath
  | .OverlayPath => v.OverlayPath
  | .ScratchPath => v.ScratchPath
  | .WorkdirPath => v.WorkdirPath
  | .PwdPath => v.PwdPath
  | .ShellPath => v.ShellPath
  | .Hostname => v.Hostname

def Vars.setString (v : Vars) (p : StringPtr) (s : String) : Vars :=
  match p with
  | .HomePath => { v with HomePath := s }
  | .OverlayPath => { v with OverlayPath := s }
  | .ScratchPath => { v with ScratchPath := s }
  | .WorkdirPath => { v with WorkdirPath := s }
  | .PwdPath => { v with PwdPath := s }
  | .ShellPath => { v with ShellPath := s }
  | .Hostname => { v with Hostname := s }

def Vars.getBool (v : Vars) : BoolPtr → Bool
  | .IsBoot => v.IsBoot
  | .IsFakeroot => v.IsFakeroot
  | .IsCleanEnv => v.IsCleanEnv
  | .IsContained => v.IsContained
  | .IsContainAll => v.IsContainAll
  | .Nvidia => v.Nvidia
  | .NetNamespace => v.NetNamespace
  | .UtsNamespace => v.UtsNamespace
  | .UserNamespace => v.UserNamespace
  | .PidNamespace => v.PidNamespace
  | .IpcNamespace => v.IpcNamespace
  | .AllowSUID => v.AllowSUID
  | .KeepPrivs => v.KeepPrivs
  | .NoPrivs => v.NoPrivs

def Vars.setBool (v : Vars) (p : BoolPtr) (b : Bool) : Vars :=
  match p with
  | .IsBoot => { v with IsBoot := b }
  | .IsFakeroot => { v with IsFakeroot := b }
  | .IsCleanEnv => { v with IsCleanEnv := b }
  | .IsContained => { v with IsContained := b }
  | .IsContainAll => { v with IsContainAll := b }
  | .Nvidia => { v with Nvidia := b }
  | .NetNamespace => { v with NetNamespace := b }
  | .UtsNamespace => { v with UtsNamespace := b }
  | .UserNamespace => { v with UserNamespace := b }
  | .PidNamespace => { v with PidNamespace := b }
  | .IpcNamespace => { v with IpcNamespace := b }
  | .AllowSUID => { v with AllowSUID := b }
  | .KeepPrivs => { v with KeepPrivs := b }
  | .NoPrivs => { v with NoPrivs := b }

def Vars.getSlice (v : Vars) : SlicePtr → List String
  | .BindPaths => v.BindPaths
  | .AddCaps => v.AddCaps
  | .DropCaps => v.DropCaps

def Vars.setSlice (v : Vars) (p : SlicePtr) (l : List String) : Vars :=
  match p with
  | .BindPaths => { v with BindPaths := l }
  | .AddCaps => { v with AddCaps := l }
  | .DropCaps => { v with DropCaps := l }

/-- Read the variable behind a pointer. -/
def Vars.read (v : Vars) : Ptr → Value
  | .str p => .str (v.getString p)
  | .bool p => .bool (v.getBool p)
  | .slice p => .strs (v.getSlice p)

/-! ## The fragment of pflag used by flags.go -/

/-- A registered flag (`pflag.Flag`): its name, one-letter shorthand (or `""`), the
variable its value writes through, and its annotations.  Usage text and the printed
default are not modelled. -/
structure Flag where
  Name : String
  Shorthand : String
  Value : Ptr
  Annotations : List (String × List String)
  deriving DecidableEq, Repr

/-- The flag set (`pflag.FlagSet`): `formal` holds the registered flags in order of
registration, `actual` the names of the flags that have been set. -/
structure FlagSet where
  formal : List Flag
  actual : List String
  deriving DecidableEq, Repr

/-- The state of package `sflags`: its variables and its flag set `Flags`. -/
structure Pkg where
  vars : Vars
  Flags : FlagSet
  deriving DecidableEq, Repr

/-- What makes the flag library panic or return an error. -/
inductive Err where
  | flagRedefined (name : String)
  | shorthandTooLong (name : String)
  | shorthandRedefined (name : String)
  | noSuchFlag (name : String)
  | invalidArgument (name : String)
  deriving DecidableEq, Repr

/-- The flag called `name` in `formal`, if any (`f.formal[name]`). -/
def FlagSet.lookup (f : FlagSet) (name : String) : Option Flag :=
  f.formal.find? (fun fl => fl.Name == name)

/-- The function `(*FlagSet).AddFlag` of pflag: panics on a name or a shorthand that is
already registered, or on a shorthand longer than one byte (Go's `len`), otherwise
appends the flag. -/
def FlagSet.AddFlag (f : FlagSet) (fl : Flag) : Except Err FlagSet :=
  if (f.lookup fl.Name).isSome then .error (.flagRedefined fl.Name)
  else if fl.Shorthand == "" then .ok { f with formal := f.formal ++ [fl] }
  else if fl.Shorthand.utf8ByteSize > 1 then .error (.shorthandTooLong fl.Name)
  else if f.formal.any (fun g => g.Shorthand == fl.Shorthand) then
    .error (.shorthandRedefined fl.Name)
  else .ok { f with formal := f.formal ++ [fl] }

/-- The function `StringVarP`: store the default through the pointer, then register. -/
def StringVarP (s : Pkg) (p : StringPtr) (name shorthand value : String) : Except Err Pkg := do
  let fs ← s.Flags.AddFlag ⟨name, shorthand, .str p, []⟩
  pure { vars := s.vars.setString p value, Flags := fs }

/-- The function `StringVar`: `StringVarP` without a shorthand. -/
def StringVar (s : Pkg) (p : StringPtr) (name value : String) : Except Err Pkg :=
  StringVarP s p name "" value

/-- The function `BoolVarP`: store the default through the pointer, then register. -/
def BoolVarP (s : Pkg) (p : BoolPtr) (name shorthand : String) (value : Bool) :
    Except Err Pkg := do
  let fs ← s.Flags.AddFlag ⟨name, shorthand, .bool p, []⟩
  pure { vars := s.vars.setBool p value, Flags := fs }

/-- The function `BoolVar`: `BoolVarP` without a shorthand. -/
def BoolVar (s : Pkg) (p : BoolPtr) (name : String) (value : Bool) : Except Err Pkg :=
  BoolVarP s p name "" value

/-- The function `StringSliceVarP`: store the default through the pointer, then register. -/
def StringSliceVarP (s : Pkg) (p : SlicePtr) (name shorthand : String)
    (value : List String) : Except Err Pkg := do
  let fs ← s.Flags.AddFlag ⟨name, shorthand, .slice p, []⟩
  pure { vars := s.vars.setSlice p value, Flags := fs }

/-- The function `StringSliceVar`: `StringSliceVarP` without a shorthand. -/
def StringSliceVar (s : Pkg) (p : SlicePtr) (name : String) (value : List String) :
    Except Err Pkg :=
  StringSliceVarP s p name "" value

/-- Replace or add the entry for `key` in an annotation map. -/
def setKey (key : String) (values : List String) :
    List (String × List String) → List (String × List String)
  | [] => [(key, values)]
  | (k, vs) :: rest =>
    if k == key then (key, values) :: rest else (k, vs) :: setKey key values rest

/-- The function `(*FlagSet).SetAnnotation`: sets `flag.Annotations[key]` of the flag
called `name`; for an unknown name it returns an error, which flags.go discards, so the
state is then unchanged. -/
def SetAnnotation (s : Pkg) (name key : String) (values : List String) : Pkg :=
  { s with Flags := { s.Flags with formal := s.Flags.formal.map (fun fl =>
      if fl.Name == name then { fl with Annotations := setKey key values fl.Annotations }
      else fl) } }

/-- Write a value through a flag's pointer (`flag.Value.Set`).  A string or a boolean
replaces the variable; a string slice replaces it the first time the flag is set and is
appended to it afterwards.  A value of the wrong type stands for text the flag's type
cannot decode. -/
def Vars.store (v : Vars) (changed : Bool) : Ptr → Value → Option Vars
  | .str p, .str s => some (v.setString p s)
  | .bool p, .bool b => some (v.setBool p b)
  | .slice p, .strs l =>
    some (v.setSlice p (if changed then v.getSlice p ++ l else l))
  | _, _ => none

/-- The end of `(*FlagSet).Set`: a flag that was not set before is recorded in
`actual` (and its `Changed` field becomes true). -/
def FlagSet.markChanged (f : FlagSet) (name : String) : FlagSet :=
  { f with actual := if f.actual.contains name then f.actual else f.actual ++ [name] }

/-- The function `(*FlagSet).Set`: look the flag up by name, write the value through its
pointer and record the flag as set. -/
def Set (s : Pkg) (name : String) (value : Value) : Except Err Pkg :=
  match s.Flags.lookup name with
  | none => .error (.noSuchFlag name)
  | some fl =>
    match s.vars.store (s.Flags.actual.contains name) fl.Value value with
    | none => .error (.invalidArgument name)
    | some vars => .ok { vars := vars, Flags := s.Flags.markChanged name }

/-- A command line after tokenisation: flag assignments, applied left to right; the
first error stops the run (the flag set is created with `pflag.ExitOnError`). -/
def Parse (s : Pkg) : List (String × Value) → Except Err Pkg
  | [] => .ok s
  | (name, value) :: rest =>
    match Set s name value with
    | .error e => .error e
    | .ok s1 => Parse s1 rest

/-! ## flags.go -/

/-- The package state before `init`: zero variables and `pflag.NewFlagSet`. -/
def Pkg.zero : Pkg := { vars := Vars.zero, Flags := { formal := [], actual := [] } }

/-- The function `initPathVars`; `home` is the result of `getHomeDir()`. -/
def initPathVars (home : String) (s : Pkg) : Except Err Pkg := do
  -- -B|--bind
  let s ← StringSliceVarP s .BindPaths "bind" "B" []
  let s := SetAnnotation s "bind" "argtag" ["<spec>"]
  -- -H|--home
  let s ← StringVarP s .HomePath "home" "H" home
  let s := SetAnnotation s "home" "argtag" ["<spec>"]
  -- -o|--overlay
  let s ← StringVarP s .OverlayPath "overlay" "o" ""
  let s := SetAnnotation s "overlay" "argtag" ["<path>"]
  -- -S|--scratch
  let s ← StringVarP s .ScratchPath "scratch" "S" ""
  let s := SetAnnotation s "scratch" "argtag" ["<path>"]
  -- -W|--workdir
  let s ← StringVarP s .WorkdirPath "workdir" "W" ""
  let s := SetAnnotation s "workdir" "argtag" ["<path>"]
  -- -s|--shell
  let s ← StringVarP s .ScratchPath "shell" "s" ""
  let s := SetAnnotation s "shell" "argtag" ["<path>"]
  -- --pwd
  let s ← StringVar s .ScratchPath "pwd" ""
  let s := SetAnnotation s "scratch" "argtag" ["<path>"]
  -- --hostname
  let s ← StringVar s .Hostname "hostname" ""
  let s := SetAnnotation s "hostname" "argtag" ["<name>"]
  pure s

/-- The function `initBoolVars`. -/
def initBoolVars (s : Pkg) : Except Err Pkg := do
  -- --boot
  let s ← BoolVar s .IsBoot "boot" false
  -- -f|--fakeroot
  let s ← BoolVarP s .IsFakeroot "fakeroot" "f" false
  -- -e|--cleanenv
  let s ← BoolVarP s .IsCleanEnv "cleanenv" "e" false
  -- -c|--contain
  let s ← BoolVarP s .IsContained "contain" "c" false
  -- -C|--containall
  let s ← BoolVarP s .IsContainAll "containall" "C" false
  -- --nv
  let s ← BoolVar s .Nvidia "nv" false
  pure s

/-- The function `initNamespaceVars`. -/
def initNamespaceVars (s : Pkg) : Except Err Pkg := do
  -- -p|--pid
  let s ← BoolVarP s .PidNamespace "pid" "p" false
  -- -i|--ipc
  let s ← BoolVarP s .IpcNamespace "ipc" "i" false
  -- -n|--net
  let s ← BoolVarP s .NetNamespace "net" "n" false
  -- --uts
  let s ← BoolVar s .UtsNamespace "uts" false
  -- -u|--userns
  let s ← BoolVarP s .UserNamespace "userns" "u" false
  pure s

/-- The function `initPrivilegeVars`. -/
def initPrivilegeVars (s : Pkg) : Except Err Pkg := do
  -- --keep-privs
  let s ← BoolVar s .KeepPrivs "keep-privs" false
  -- --no-privs
  let s ← BoolVar s .NoPrivs "no-privs" true
  -- --add-caps
  let s ← StringSliceVar s .AddCaps "add-caps" []
  -- --drop-caps
  let s ← StringSliceVar s .DropCaps "drop-caps" []
  -- --allow-setuid
  let s ← BoolVar s .AllowSUID "allow-setuid" false
  pure s

/-- The package initialiser `init` of flags.go, run on the zero state. -/
def init (home : String) : Except Err Pkg := do
  let s ← initPathVars home Pkg.zero
  let s ← initBoolVars s
  let s ← initNamespaceVars s
  let s ← initPrivilegeVars s
  pure s

/-- The command: start the process (`init` runs) and apply the flag assignments of the
command line. -/
def run (home : String) (cmds : List (String × Value)) : Except Err Pkg := do
  let s ← init home
  Parse s cmds

/-! ## Derived values -/

/-- The flags that `init` registers, in order of registration (`init_eq`). -/
def registered : List Flag :=
  [ ⟨"bind", "B", .slice .BindPaths, [("argtag", ["<spec>"])]⟩,
    ⟨"home", "H", .str .HomePath, [("argtag", ["<spec>"])]⟩,
    ⟨"overlay", "o", .str .OverlayPath, [("argtag", ["<path>"])]⟩,
    ⟨"scratch", "S", .str .ScratchPath, [("argtag", ["<path>"])]⟩,
    ⟨"workdir", "W", .str .WorkdirPath, [("argtag", ["<path>"])]⟩,
    ⟨"shell", "s", .str .ScratchPath, [("argtag", ["<path>"])]⟩,
    ⟨"pwd", "", .str .ScratchPath, []⟩,
    ⟨"hostname", "", .str .Hostname, [("argtag", ["<name>"])]⟩,
    ⟨"boot", "", .bool .IsBoot, []⟩,
    ⟨"fakeroot", "f", .bool .IsFakeroot, []⟩,
    ⟨"cleanenv", "e", .bool .IsCleanEnv, []⟩,
    ⟨"contain", "c", .bool .IsContained, []⟩,
    ⟨"containall", "C", .bool .IsContainAll, []⟩,
    ⟨"nv", "", .bool .Nvidia, []⟩,
    ⟨"pid", "p", .bool .PidNamespace, []⟩,
    ⟨"ipc", "i", .bool .IpcNamespace, []⟩,
    ⟨"net", "n", .bool .NetNamespace, []⟩,
    ⟨"uts", "", .bool .UtsNamespace, []⟩,
    ⟨"userns", "u", .bool .UserNamespace, []⟩,
    ⟨"keep-privs", "", .bool .KeepPrivs, []⟩,
    ⟨"no-privs", "", .bool .NoPrivs, []⟩,
    ⟨"add-caps", "", .slice .AddCaps, []⟩,
    ⟨"drop-caps", "", .slice .DropCaps, []⟩,
    ⟨"allow-setuid", "", .bool .AllowSUID, []⟩ ]

/-- The values of the package variables after `init` (`init_eq`). -/
def defaults (home : String) : Vars :=
  { Vars.zero with HomePath := home, NoPrivs := true }

/-- The storage the flag called `name` is bound to after `init`. -/
def target (name : String) : Option Ptr :=
  (FlagSet.lookup ⟨registered, []⟩ name).map (fun fl => fl.Value)

/-- The name of the flag that `init` binds to a boolean variable (`target_bool_iff`). -/
def flagOf : BoolPtr → String
  | .IsBoot => "boot"
  | .IsFakeroot => "fakeroot"
  | .IsCleanEnv => "cleanenv"
  | .IsContained => "contain"
  | .IsContainAll => "containall"
  | .Nvidia => "nv"
  | .NetNamespace => "net"
  | .UtsNamespace => "uts"
  | .UserNamespace => "userns"
  | .PidNamespace => "pid"
  | .IpcNamespace => "ipc"
  | .AllowSUID => "allow-setuid"
  | .KeepPrivs => "keep-privs"
  | .NoPrivs => "no-privs"

/-- The value of the last assignment to flag `name` in a command line, `d` if there is
none. -/
def lastAssigned (name : String) (d : Value) : List (String × Value) → Value
  | [] => d
  | (n, v) :: rest => lastAssigned name (if n = name then v else d) rest

end sflags

namespace resolver

/-! ## The privilege resolution of the specification

flags.go only declares and registers the flags; the repository has no function that
combines them.  The resolution below is the one the specification describes. -/

/-- Modelled from the spec: the privilege modes of `PrivilegePolicy` (section 3); the
source has no such type. -/
inductive Mode where
  | DropAll | KeepPrivileges | Fakeroot
  deriving DecidableEq, Repr

/-- Modelled from the spec: the record `PrivilegePolicy` (section 3); the source has no
such type. -/
structure PrivilegePolicy where
  mode : Mode
  allowSetuidBinaries : Bool
  deriving DecidableEq, Repr

/-- Modelled from the spec: the error kind raised by `PrivilegePolicyResolver`
(section 7); the source has no such error. -/
inductive ResolveError where
  | PrivilegeConflict
  deriving DecidableEq, Repr

/-- Modelled from the spec: `PrivilegePolicyResolver.resolve` (section 4.4), which the
source does not contain: the two conflicts, then the resolution order fakeroot,
keepPrivs, default.  The order does not consult `noPrivs`. -/
def resolve (fakeroot keepPrivs noPrivs allowSUID : Bool) :
    Except ResolveError PrivilegePolicy :=
  let _ := noPrivs
  if fakeroot && allowSUID then .error .PrivilegeConflict
  else if keepPrivs && fakeroot then .error .PrivilegeConflict
  else if fakeroot then .ok ⟨.Fakeroot, allowSUID⟩
  else if keepPrivs then .ok ⟨.KeepPrivileges, allowSUID⟩
  else .ok ⟨.DropAll, allowSUID⟩

end resolver

namespace cli

/-! ## The fragment of the Go library used by pull.go

Go strings are modelled by `String`; the separator `"://"` is ASCII, so splitting by
characters and splitting by bytes agree. -/

/-- The function `strings.Index` on character lists: the position of the first
occurrence of `sep` in `s`, `none` for Go's `-1`. -/
def indexChars (sep : List Char) : List Char → Option Nat
  | [] => if sep.isEmpty then some 0 else none
  | c :: cs =>
    if sep.isPrefixOf (c :: cs) then some 0
    else (indexChars sep cs).map (fun m => m + 1)

/-- The loop of `strings.genSplit` for a non-empty separator: cut at the first
occurrence, continue after it, and end with what is left.  `fuel` bounds the number of
cuts. -/
def splitLoop (sep : List Char) : Nat → List Char → List (List Char)
  | 0, s => [s]
  | fuel + 1, s =>
    match indexChars sep s with
    | none => [s]
    | some m => s.take m :: splitLoop sep fuel (s.drop (m + sep.length))

/-- The function `strings.Split` on character lists.  An empty separator explodes the
string into its characters; otherwise every cut removes at least one character, so
`s.length` cuts are enough (`splitLoop_fuel`). -/
def splitChars (s sep : List Char) : List (List Char) :=
  if sep.isEmpty then s.map (fun c => [c])
  else splitLoop sep s.length s

/-- The function `strings.Split`. -/
def Split (s sep : String) : List String :=
  (splitChars s.data sep.data).map String.mk

/-- A runtime fault of `Run`. -/
inductive Fault where
  | indexOutOfRange
  deriving DecidableEq, Repr

/-- The Go index expression `xs[i]`, which faults when `i` is out of range. -/
def index (xs : List String) (i : Nat) : Except Fault String :=
  match xs[i]? with
  | some x => .ok x
  | none => .error .indexOutOfRange

/-- What `Run` does to the outside world, in order. -/
inductive Effect where
  | PullImage (name uri libraryURI : String) (force : Bool) (authToken : String)
  | stdout (text : String)
  deriving DecidableEq, Repr

/-- The function `fmt.Println` on strings: the operands separated by blanks, then a
newline. -/
def Println (operands : List String) : Effect :=
  .stdout (" ".intercalate operands ++ "\n")

/-! ## pull.go -/

/-- The constant `SyCloudLibrary`. -/
def SyCloudLibrary : String := "library"

/-- The constant `Shub`. -/
def Shub : String := "shub"

/-- The package variables `Run` reads: `PullLibraryURI` of pull.go, and `force` and
`authToken`, which are declared in other files of the package. -/
structure Globals where
  PullLibraryURI : String
  force : Bool
  authToken : String
  deriving DecidableEq, Repr

/-- The `Run` function of `PullCmd`, as a function from the arguments to the effects it
performs, or a fault. -/
def Run (g : Globals) (args : List String) : Except Fault (List Effect) := do
  let uri ← if args.length == 2 then index args 1 else index args 0
  let BaseURI := Split uri "://"
  let scheme ← index BaseURI 0
  if scheme == SyCloudLibrary then
    if args.length == 2 then
      let name ← index args 0
      pure [Effect.PullImage name uri g.PullLibraryURI g.force g.authToken]
    else
      let image ← index args 0
      pure [Effect.PullImage "" image g.PullLibraryURI g.force g.authToken]
  else if scheme == Shub then
    pure [Println ["Shub not yet supported"]]
  else
    pure [Println [scheme, "Not a supported URI"]]

/-- The position of the first occurrence of `sep` in `s`, stated directly: the least
`i` at which `sep` is a prefix of what remains of `s`. -/
def firstOccurrence (sep s : List Char) : Option Nat :=
  (List.range (s.length + 1)).find? (fun i => sep.isPrefixOf (s.drop i))

/-- The scheme of a URI as the specification words it: the part before the first
occurrence of `"://"`, the whole URI when there is none. -/
def schemeOf (uri : String) : String :=
  match firstOccurrence "://".data uri.data with
  | some i => String.mk (uri.data.take i)
  | none => uri

end cli

/-! # Theorems -/

namespace sflags

/-! ## The initialiser -/

theorem initPathVars_zero (home : String) :
    initPathVars home Pkg.zero
      = .ok ⟨{ Vars.zero with HomePath := home }, ⟨registered.take 8, []⟩⟩ := by
  simp +decide [initPathVars, StringSliceVarP, StringVarP, StringVar, SetAnnotation, setKey,
    FlagSet.AddFlag, FlagSet.lookup, bind, Except.bind, pure, Except.pure, Pkg.zero,
    registered, Vars.setString, Vars.setSlice, Vars.zero]

theorem initBoolVars_eq (v : Vars) :
    initBoolVars ⟨v, ⟨registered.take 8, []⟩⟩
      = .ok ⟨{ v with IsBoot := false, IsFakeroot := false, IsCleanEnv := false,
                      IsContained := false, IsContainAll := false, Nvidia := false },
             ⟨registered.take 14, []⟩⟩ := by
  simp +decide [initBoolVars, BoolVar, BoolVarP, FlagSet.AddFlag, FlagSet.lookup, bind,
    Except.bind, pure, Except.pure, registered, Vars.setBool]

theorem initNamespaceVars_eq (v : Vars) :
    initNamespaceVars ⟨v, ⟨registered.take 14, []⟩⟩
      = .ok ⟨{ v with PidNamespace := false, IpcNamespace := false, NetNamespace := false,
                      UtsNamespace := false, UserNamespace := false },
             ⟨registered.take 19, []⟩⟩ := by
  simp +decide [initNamespaceVars, BoolVar, BoolVarP, FlagSet.AddFlag, FlagSet.lookup, bind,
    Except.bind, pure, Except.pure, registered, Vars.setBool]

theorem initPrivilegeVars_eq (v : Vars) :
    initPrivilegeVars ⟨v, ⟨registered.take 19, []⟩⟩
      = .ok ⟨{ v with KeepPrivs := false, NoPrivs := true, AddCaps := [], DropCaps := [],
                      AllowSUID := false },
             ⟨registered, []⟩⟩ := by
  simp +decide [initPrivilegeVars, BoolVar, BoolVarP, StringSliceVar, StringSliceVarP,
    FlagSet.AddFlag, FlagSet.lookup, bind, Except.bind, pure, Except.pure, registered,
    Vars.setBool, Vars.setSlice]

/-- The initialiser succeeds (no flag name or shorthand is registered twice) and leaves
the variables at `defaults home` and the flag set at `registered`. -/
theorem init_eq (home : String) :
    init home = .ok ⟨defaults home, ⟨registered, []⟩⟩ := by
  simp only [init, initPathVars_zero, initBoolVars_eq, initNamespaceVars_eq,
    initPrivilegeVars_eq, bind, Except.bind, pure, Except.pure]
  rfl

theorem run_eq (home : String) (cmds : List (String × Value)) :
    run home cmds = Parse ⟨defaults home, ⟨registered, []⟩⟩ cmds := by
  simp only [run, init_eq, bind, Except.bind]

/-! ## Assignments keep the registered flags -/

theorem Set_formal {s s' : Pkg} {name : String} {value : Value}
    (h : Set s name value = .ok s') : s'.Flags.formal = s.Flags.formal := by
  unfold Set at h
  split at h
  · cases h
  · split at h
    · cases h
    · cases h; rfl

theorem Parse_formal {cmds : List (String × Value)} {s s' : Pkg}
    (h : Parse s cmds = .ok s') : s'.Flags.formal = s.Flags.formal := by
  induction cmds generalizing s with
  | nil => simp only [Parse] at h; cases h; rfl
  | cons c rest ih =>
    obtain ⟨n, v⟩ := c
    simp only [Parse] at h
    split at h
    · cases h
    · next s1 h1 => rw [ih h, Set_formal h1]

theorem run_formal {home : String} {cmds : List (String × Value)} {s : Pkg}
    (h : run home cmds = .ok s) : s.Flags.formal = registered := by
  rw [run_eq] at h
  exact Parse_formal h

theorem lookup_eq_target {s : Pkg} (hf : s.Flags.formal = registered) (name : String) :
    (s.Flags.lookup name).map (fun fl => fl.Value) = target name := by
  simp only [FlagSet.lookup, target, hf]

/-! ## What one assignment writes -/

theorem Set_bool {s : Pkg} (hf : s.Flags.formal = registered) {name : String} {p : BoolPtr}
    (ht : target name = some (.bool p)) (b : Bool) :
    Set s name (.bool b) = .ok ⟨s.vars.setBool p b, s.Flags.markChanged name⟩ := by
  have hl := lookup_eq_target hf name
  rw [ht] at hl
  cases hfl : s.Flags.lookup name with
  | none => rw [hfl] at hl; cases hl
  | some fl =>
    rw [hfl] at hl
    simp only [Option.map_some', Option.some.injEq] at hl
    simp only [Set, hfl, hl, Vars.store]

theorem Set_str {s : Pkg} (hf : s.Flags.formal = registered) {name : String} {p : StringPtr}
    (ht : target name = some (.str p)) (x : String) :
    Set s name (.str x) = .ok ⟨s.vars.setString p x, s.Flags.markChanged name⟩ := by
  have hl := lookup_eq_target hf name
  rw [ht] at hl
  cases hfl : s.Flags.lookup name with
  | none => rw [hfl] at hl; cases hl
  | some fl =>
    rw [hfl] at hl
    simp only [Option.map_some', Option.some.injEq] at hl
    simp only [Set, hfl, hl, Vars.store]

theorem Set_slice {s : Pkg} (hf : s.Flags.formal = registered) {name : String}
    {p : SlicePtr} (ht : target name = some (.slice p)) (l : List String) :
    Set s name (.strs l) = .ok ⟨s.vars.setSlice p
        (if s.Flags.actual.contains name then s.vars.getSlice p ++ l else l),
      s.Flags.markChanged name⟩ := by
  have hl := lookup_eq_target hf name
  rw [ht] at hl
  cases hfl : s.Flags.lookup name with
  | none => rw [hfl] at hl; cases hl
  | some fl =>
    rw [hfl] at hl
    simp only [Option.map_some', Option.some.injEq] at hl
    simp only [Set, hfl, hl, Vars.store]

theorem getBool_setBool (v : Vars) (p q : BoolPtr) (b : Bool) :
    (v.setBool q b).getBool p = if p = q then b else v.getBool p := by
  cases p <;> cases q <;> rfl

theorem getBool_setString (v : Vars) (p : BoolPtr) (q : StringPtr) (x : String) :
    (v.setString q x).getBool p = v.getBool p := by
  cases p <;> cases q <;> rfl

theorem getBool_setSlice (v : Vars) (p : BoolPtr) (q : SlicePtr) (l : List String) :
    (v.setSlice q l).getBool p = v.getBool p := by
  cases p <;> cases q <;> rfl

/-- A boolean variable is the storage of exactly one flag. -/
theorem target_bool_iff (name : String) (p : BoolPtr) :
    target name = some (.bool p) ↔ name = flagOf p := by
  constructor
  · intro h
    simp only [target, FlagSet.lookup, Option.map_eq_some'] at h
    obtain ⟨fl, hfind, hval⟩ := h
    have hmem := List.mem_of_find?_eq_some hfind
    have hname := List.find?_some hfind
    simp only [beq_iff_eq] at hname
    subst hname
    simp only [registered, List.mem_cons, List.mem_singleton, List.not_mem_nil,
      or_false] at hmem
    rcases hmem with h | h | h | h | h | h | h | h | h | h | h | h | h | h | h | h | h | h
      | h | h | h | h | h | h <;> subst h <;> cases hval <;> rfl
  · intro h
    subst h
    cases p <;> rfl

/-- After one assignment a boolean variable holds the assigned value when the flag is
bound to it, and its old value otherwise. -/
theorem Set_getBool {s s' : Pkg} (hf : s.Flags.formal = registered) {name : String}
    {value : Value} (h : Set s name value = .ok s') (p : BoolPtr) :
    Value.bool (s'.vars.getBool p)
      = if name = flagOf p then value else Value.bool (s.vars.getBool p) := by
  have hl := lookup_eq_target hf name
  unfold Set at h
  cases hfl : s.Flags.lookup name with
  | none => rw [hfl] at h; cases h
  | some fl =>
    rw [hfl] at hl h
    simp only [Option.map_some'] at hl
    simp only at h
    have key : name = flagOf p ↔ fl.Value = .bool p := by
      rw [← target_bool_iff, ← hl, Option.some.injEq]
    simp only [key]
    cases hv : fl.Value with
    | str q =>
      cases value <;> simp only [hv, Vars.store] at h <;> cases h
      simp [getBool_setString]
    | bool q =>
      cases value <;> simp only [hv, Vars.store] at h <;> cases h
      simp only [getBool_setBool, Ptr.bool.injEq]
      by_cases hpq : p = q
      · simp [hpq]
      · have : ¬ q = p := fun e => hpq e.symm
        simp [hpq, this]
    | slice q =>
      cases value <;> simp only [hv, Vars.store] at h <;> cases h
      simp [getBool_setSlice]

/-- After a command line a boolean variable holds the last value assigned to its own
flag, and its previous value if that flag was not assigned. -/
theorem Parse_getBool {cmds : List (String × Value)} {s s' : Pkg}
    (hf : s.Flags.formal = registered) (h : Parse s cmds = .ok s') (p : BoolPtr) :
    Value.bool (s'.vars.getBool p)
      = lastAssigned (flagOf p) (.bool (s.vars.getBool p)) cmds := by
  induction cmds generalizing s with
  | nil => simp only [Parse] at h; cases h; rfl
  | cons c rest ih =>
    obtain ⟨n, v⟩ := c
    simp only [Parse] at h
    split at h
    · cases h
    · next s1 h1 =>
      rw [ih ((Set_formal h1).trans hf) h, Set_getBool hf h1 p]
      rfl

/-! ## Privilege flags -/

/-- Counterexample to C1 as stated: the command lines `--fakeroot --allow-setuid` and
`--fakeroot --keep-privs` are both accepted, and leave the contradictory pair of
variables true. -/
theorem fakeroot_with_setuid_or_keep_privs_accepted :
    (∃ s, run "/root" [("fakeroot", .bool true), ("allow-setuid", .bool true)] = .ok s
        ∧ s.vars.IsFakeroot = true ∧ s.vars.AllowSUID = true)
    ∧ (∃ s, run "/root" [("fakeroot", .bool true), ("keep-privs", .bool true)] = .ok s
        ∧ s.vars.IsFakeroot = true ∧ s.vars.KeepPrivs = true) :=
  ⟨⟨_, by rw [run_eq]; rfl, rfl, rfl⟩, ⟨_, by rw [run_eq]; rfl, rfl, rfl⟩⟩

/-- C1, amended: in every state reached from the initialised defaults by accepted flag
assignments, assigning any three booleans to `fakeroot`, `allow-setuid` and `keep-privs`
succeeds and stores exactly those values in `IsFakeroot`, `AllowSUID` and `KeepPrivs`,
leaving every other variable as it was; no combination is rejected. -/
theorem privilege_flags_never_rejected (home : String) (cmds : List (String × Value))
    (s : Pkg) (h : run home cmds = .ok s) (f a k : Bool) :
    ∃ s', Parse s [("fakeroot", .bool f), ("allow-setuid", .bool a), ("keep-privs", .bool k)]
        = .ok s'
      ∧ s'.vars = { s.vars with IsFakeroot := f, AllowSUID := a, KeepPrivs := k } := by
  have hf := run_formal h
  have e1 := Set_bool hf (show target "fakeroot" = some (.bool .IsFakeroot) by decide) f
  have hf1 : (Pkg.mk (s.vars.setBool .IsFakeroot f)
      (s.Flags.markChanged "fakeroot")).Flags.formal = registered := hf
  have e2 := Set_bool hf1 (show target "allow-setuid" = some (.bool .AllowSUID) by decide) a
  have hf2 : (Pkg.mk ((s.vars.setBool .IsFakeroot f).setBool .AllowSUID a)
      ((s.Flags.markChanged "fakeroot").markChanged "allow-setuid")).Flags.formal
      = registered := hf
  have e3 := Set_bool hf2 (show target "keep-privs" = some (.bool .KeepPrivs) by decide) k
  refine ⟨⟨((s.vars.setBool .IsFakeroot f).setBool .AllowSUID a).setBool .KeepPrivs k,
    ((s.Flags.markChanged "fakeroot").markChanged "allow-setuid").markChanged
      "keep-privs"⟩, ?_, rfl⟩
  simp only [Parse, e1, e2, e3]

/-- Witness of C1 (amended) at the initial state and the assignment of true to all
three flags. -/
theorem privilege_flags_never_rejected_witness :
    run "/root" [] = .ok ⟨defaults "/root", ⟨registered, []⟩⟩
    ∧ ∃ s', Parse ⟨defaults "/root", ⟨registered, []⟩⟩
        [("fakeroot", .bool true), ("allow-setuid", .bool true), ("keep-privs", .bool true)]
        = .ok s'
      ∧ s'.vars = { defaults "/root" with
          IsFakeroot := true, AllowSUID := true, KeepPrivs := true } :=
  (fun h => ⟨h, privilege_flags_never_rejected "/root" [] _ h true true true⟩)
    (by rw [run_eq]; rfl)

/-! ## Namespace flags -/

/-- Counterexample to C2 as stated: after `--fakeroot` alone, `IsFakeroot` is true and
`UserNamespace` is false. -/
theorem fakeroot_without_user_namespace :
    ∃ s, run "/root" [("fakeroot", .bool true)] = .ok s
      ∧ s.vars.IsFakeroot = true ∧ s.vars.UserNamespace = false :=
  ⟨_, by rw [run_eq]; rfl, rfl, rfl⟩

/-- C2, amended: after any accepted command line, `UserNamespace` is the last value
assigned to `userns` (false if it was never assigned) and `IsFakeroot` is the last value
assigned to `fakeroot` (false if never assigned); `fakeroot` does not write
`UserNamespace`. -/
theorem userns_follows_own_flag (home : String) (cmds : List (String × Value)) (s : Pkg)
    (h : run home cmds = .ok s) :
    Value.bool s.vars.UserNamespace = lastAssigned "userns" (.bool false) cmds
    ∧ Value.bool s.vars.IsFakeroot = lastAssigned "fakeroot" (.bool false) cmds := by
  rw [run_eq] at h
  exact ⟨Parse_getBool rfl h .UserNamespace, Parse_getBool rfl h .IsFakeroot⟩

/-- Witness of C2 (amended) at the command line `--fakeroot --pid`. -/
theorem userns_follows_own_flag_witness :
    run "/root" [("fakeroot", .bool true), ("pid", .bool true)]
      = .ok ⟨{ defaults "/root" with IsFakeroot := true, PidNamespace := true },
          ⟨registered, ["fakeroot", "pid"]⟩⟩
    ∧ Value.bool false
        = lastAssigned "userns" (.bool false) [("fakeroot", .bool true), ("pid", .bool true)]
    ∧ Value.bool true
        = lastAssigned "fakeroot" (.bool false)
            [("fakeroot", .bool true), ("pid", .bool true)] :=
  (fun h => ⟨h, userns_follows_own_flag "/root" _ _ h⟩) (by rw [run_eq]; rfl)

/-- Counterexample to C3 as stated: after `--containall --pid=false --ipc=false`,
`IsContainAll` is true and `PidNamespace` and `IpcNamespace` are false. -/
theorem containall_without_pid_ipc :
    ∃ s, run "/root" [("containall", .bool true), ("pid", .bool false), ("ipc", .bool false)]
        = .ok s
      ∧ s.vars.IsContainAll = true ∧ s.vars.PidNamespace = false
      ∧ s.vars.IpcNamespace = false :=
  ⟨_, by rw [run_eq]; rfl, rfl, rfl, rfl⟩

/-- C3, amended: after any accepted command line, `PidNamespace` and `IpcNamespace` are
the last values assigned to `pid` and `ipc` (false if never assigned) and `IsContainAll`
is the last value assigned to `containall`; `containall` writes neither namespace
variable. -/
theorem pid_ipc_follow_own_flags (home : String) (cmds : List (String × Value)) (s : Pkg)
    (h : run home cmds = .ok s) :
    Value.bool s.vars.PidNamespace = lastAssigned "pid" (.bool false) cmds
    ∧ Value.bool s.vars.IpcNamespace = lastAssigned "ipc" (.bool false) cmds
    ∧ Value.bool s.vars.IsContainAll = lastAssigned "containall" (.bool false) cmds := by
  rw [run_eq] at h
  exact ⟨Parse_getBool rfl h .PidNamespace, Parse_getBool rfl h .IpcNamespace,
    Parse_getBool rfl h .IsContainAll⟩

/-- Witness of C3 (amended) at the command line `--containall`. -/
theorem pid_ipc_follow_own_flags_witness :
    run "/root" [("containall", .bool true)]
      = .ok ⟨{ defaults "/root" with IsContainAll := true }, ⟨registered, ["containall"]⟩⟩
    ∧ Value.bool false = lastAssigned "pid" (.bool false) [("containall", .bool true)]
    ∧ Value.bool false = lastAssigned "ipc" (.bool false) [("containall", .bool true)]
    ∧ Value.bool true = lastAssigned "containall" (.bool false) [("containall", .bool true)] :=
  (fun h => ⟨h, pid_ipc_follow_own_flags "/root" _ _ h⟩) (by rw [run_eq]; rfl)

/-! ## Privilege mode -/

/-- Counterexample to C4 as stated: after `--keep-privs` alone, `KeepPrivs` and `NoPrivs`
are both true. -/
theorem keep_privs_and_no_privs_both_true :
    ∃ s, run "/root" [("keep-privs", .bool true)] = .ok s
      ∧ s.vars.KeepPrivs = true ∧ s.vars.NoPrivs = true :=
  ⟨_, by rw [run_eq]; rfl, rfl, rfl⟩

/-- C4, amended: `KeepPrivs` and `NoPrivs` are two independent booleans: after any
accepted sequence of flag assignments from the initialised defaults, `KeepPrivs` is the
last value assigned to `keep-privs` (false if never assigned) and `NoPrivs` is the last
value assigned to `no-privs` (true if never assigned); and from every such state,
assigning any boolean `k` to `keep-privs` and any boolean `n` to `no-privs` succeeds and
leaves `KeepPrivs = k` and `NoPrivs = n` with every other variable unchanged, so all
four combinations occur: both true, both false, and the two mixed ones. -/
theorem keep_privs_no_privs_independent (home : String) (cmds : List (String × Value))
    (s : Pkg) (h : run home cmds = .ok s) :
    Value.bool s.vars.KeepPrivs = lastAssigned "keep-privs" (.bool false) cmds
    ∧ Value.bool s.vars.NoPrivs = lastAssigned "no-privs" (.bool true) cmds
    ∧ ∀ k n : Bool, ∃ s',
        Parse s [("keep-privs", .bool k), ("no-privs", .bool n)] = .ok s'
        ∧ s'.vars = { s.vars with KeepPrivs := k, NoPrivs := n } := by
  have hf := run_formal h
  rw [run_eq] at h
  refine ⟨Parse_getBool rfl h .KeepPrivs, Parse_getBool rfl h .NoPrivs, ?_⟩
  intro k n
  have e1 := Set_bool hf (show target "keep-privs" = some (.bool .KeepPrivs) by decide) k
  have hf1 : (Pkg.mk (s.vars.setBool .KeepPrivs k)
      (s.Flags.markChanged "keep-privs")).Flags.formal = registered := hf
  have e2 := Set_bool hf1 (show target "no-privs" = some (.bool .NoPrivs) by decide) n
  refine ⟨⟨(s.vars.setBool .KeepPrivs k).setBool .NoPrivs n,
    (s.Flags.markChanged "keep-privs").markChanged "no-privs"⟩, ?_, rfl⟩
  simp only [Parse, e1, e2]

/-- Witness of C4 (amended) at the command line `--no-privs=false`, which leaves
`KeepPrivs` and `NoPrivs` both false. -/
theorem keep_privs_no_privs_independent_witness :
    run "/root" [("no-privs", .bool false)]
      = .ok ⟨{ defaults "/root" with NoPrivs := false }, ⟨registered, ["no-privs"]⟩⟩
    ∧ Value.bool false = lastAssigned "keep-privs" (.bool false) [("no-privs", .bool false)]
    ∧ Value.bool false = lastAssigned "no-privs" (.bool true) [("no-privs", .bool false)]
    ∧ ∀ k n : Bool, ∃ s',
        Parse ⟨{ defaults "/root" with NoPrivs := false }, ⟨registered, ["no-privs"]⟩⟩
          [("keep-privs", .bool k), ("no-privs", .bool n)] = .ok s'
        ∧ s'.vars = { ({ defaults "/root" with NoPrivs := false } : Vars) with
            KeepPrivs := k, NoPrivs := n } :=
  (fun h => ⟨h, keep_privs_no_privs_independent "/root" _ _ h⟩) (by rw [run_eq]; rfl)

/-- C5: with no command-line flag given, initialisation succeeds with
`IsFakeroot = false`, `KeepPrivs = false`, `NoPrivs = true` and `AllowSUID = false`, and
the resolution order of the specification (fakeroot, then keepPrivs, then default) maps
these values to mode `DropAll`. -/
theorem default_privilege_mode_DropAll (home : String) :
    ∃ s, init home = .ok s ∧ run home [] = .ok s
      ∧ s.vars.IsFakeroot = false ∧ s.vars.KeepPrivs = false ∧ s.vars.NoPrivs = true
      ∧ s.vars.AllowSUID = false
      ∧ resolver.resolve s.vars.IsFakeroot s.vars.KeepPrivs s.vars.NoPrivs s.vars.AllowSUID
          = .ok ⟨.DropAll, false⟩ :=
  ⟨_, init_eq home, by rw [run_eq]; rfl, rfl, rfl, rfl, rfl, rfl⟩

/-! ## Capability lists -/

/-- Counterexample to C6 as stated: `--add-caps chown --drop-caps chown` is accepted and
leaves `chown` in both `AddCaps` and `DropCaps`. -/
theorem chown_added_and_dropped_accepted :
    ∃ s, run "/root" [("add-caps", .strs ["chown"]), ("drop-caps", .strs ["chown"])] = .ok s
      ∧ s.vars.AddCaps = ["chown"] ∧ s.vars.DropCaps = ["chown"] :=
  ⟨_, by rw [run_eq]; rfl, rfl, rfl⟩

/-- C6, amended: for all add-caps and drop-caps name lists, assigning them from the
initialised defaults succeeds and stores the two lists as given, whether or not a name
appears in both; in particular disjoint lists are stored as disjoint lists. -/
theorem capability_lists_stored_as_given (home : String) (add drop : List String) :
    ∃ s, run home [("add-caps", .strs add), ("drop-caps", .strs drop)] = .ok s
      ∧ s.vars.AddCaps = add ∧ s.vars.DropCaps = drop
      ∧ (List.Disjoint add drop → List.Disjoint s.vars.AddCaps s.vars.DropCaps) :=
  ⟨_, by rw [run_eq]; rfl, rfl, rfl, fun hd => hd⟩

/-! ## Storage of the path flags -/

theorem target_mem {n : String} {p : Ptr} (h : target n = some p) :
    ∃ fl ∈ registered, fl.Name = n ∧ fl.Value = p := by
  simp only [target, FlagSet.lookup, Option.map_eq_some'] at h
  obtain ⟨fl, hfind, hval⟩ := h
  have hname := List.find?_some hfind
  simp only [beq_iff_eq] at hname
  exact ⟨fl, List.mem_of_find?_eq_some hfind, hname, hval⟩

/-- The only storage shared by two different flags is `ScratchPath`. -/
theorem shared_storage_is_ScratchPath (f g : String) (p : Ptr) (hf : target f = some p)
    (hg : target g = some p) (hne : f ≠ g) : p = .str .ScratchPath := by
  obtain ⟨a, ha, rfl, rfl⟩ := target_mem hf
  obtain ⟨b, hb, rfl, hbv⟩ := target_mem hg
  simp only [registered, List.mem_cons, List.mem_singleton, List.not_mem_nil,
    or_false] at ha hb
  rcases ha with h | h | h | h | h | h | h | h | h | h | h | h | h | h | h | h | h | h
      | h | h | h | h | h | h <;> subst h <;>
  rcases hb with h | h | h | h | h | h | h | h | h | h | h | h | h | h | h | h | h | h
      | h | h | h | h | h | h <;> subst h <;>
  first
    | rfl
    | exact absurd rfl hne
    | exact absurd hbv (by decide)

/-- C7, the code at the failing input `--scratch /tmp/scratch --shell /bin/zsh`: the
flags `shell` and `pwd` are bound to the storage of `scratch`, so the assignment to
`shell` overwrites `ScratchPath`, and `ShellPath` stays empty. -/
theorem shell_flag_overwrites_ScratchPath :
    target "shell" = target "scratch" ∧ target "pwd" = target "scratch"
    ∧ ∃ s, run "/root" [("scratch", .str "/tmp/scratch"), ("shell", .str "/bin/zsh")] = .ok s
      ∧ s.vars.ScratchPath = "/bin/zsh" ∧ s.vars.ShellPath = "" :=
  ⟨by decide, by decide, _, by rw [run_eq]; rfl, rfl, rfl⟩

/-- Counterexample to C8 as stated: `overlay` and `scratch` are bound to different
storage; assigning `overlay` leaves `ScratchPath` empty and assigning `scratch` leaves
`OverlayPath` empty. -/
theorem overlay_and_scratch_not_aliased :
    target "overlay" ≠ target "scratch"
    ∧ (∃ s, run "/root" [("overlay", .str "/img")] = .ok s
        ∧ s.vars.OverlayPath = "/img" ∧ s.vars.ScratchPath = "")
    ∧ (∃ s, run "/root" [("scratch", .str "/tmp/s")] = .ok s
        ∧ s.vars.ScratchPath = "/tmp/s" ∧ s.vars.OverlayPath = "") :=
  ⟨by decide, ⟨_, by rw [run_eq]; rfl, rfl, rfl⟩, ⟨_, by rw [run_eq]; rfl, rfl, rfl⟩⟩

/-- C8, amended: `overlay` is bound to `OverlayPath` and `scratch` to `ScratchPath`: in
every state reached from the initialised defaults, assigning a value to `overlay`
succeeds and changes `OverlayPath` only, and assigning a value to `scratch` succeeds and
changes `ScratchPath` only. -/
theorem overlay_scratch_distinct_storage (home : String) (cmds : List (String × Value))
    (s : Pkg) (h : run home cmds = .ok s) (x : String) :
    (∃ s', Set s "overlay" (.str x) = .ok s'
        ∧ s'.vars = { s.vars with OverlayPath := x })
    ∧ (∃ s', Set s "scratch" (.str x) = .ok s'
        ∧ s'.vars = { s.vars with ScratchPath := x }) := by
  have hf := run_formal h
  exact ⟨⟨_, Set_str hf (show target "overlay" = some (.str .OverlayPath) by decide) x, rfl⟩,
    ⟨_, Set_str hf (show target "scratch" = some (.str .ScratchPath) by decide) x, rfl⟩⟩

/-- Witness of C8 (amended) at the initial state and the value `/img`. -/
theorem overlay_scratch_distinct_storage_witness :
    run "/root" [] = .ok ⟨defaults "/root", ⟨registered, []⟩⟩
    ∧ (∃ s', Set ⟨defaults "/root", ⟨registered, []⟩⟩ "overlay" (.str "/img") = .ok s'
        ∧ s'.vars = { defaults "/root" with OverlayPath := "/img" })
    ∧ (∃ s', Set ⟨defaults "/root", ⟨registered, []⟩⟩ "scratch" (.str "/img") = .ok s'
        ∧ s'.vars = { defaults "/root" with ScratchPath := "/img" }) :=
  (fun h => ⟨h, overlay_scratch_distinct_storage "/root" [] _ h "/img"⟩)
    (by rw [run_eq]; rfl)

end sflags

namespace cli

/-! ## strings.Split -/

theorem isPrefixOf_nil_right (sep : List Char) : sep.isPrefixOf [] = sep.isEmpty := by
  cases sep <;> rfl

/-- The recursive search agrees with the direct statement of the first occurrence. -/
theorem indexChars_eq_firstOccurrence (sep s : List Char) :
    indexChars sep s = firstOccurrence sep s := by
  induction s with
  | nil =>
    cases sep <;> rfl
  | cons c cs ih =>
    have hstep : firstOccurrence sep (c :: cs)
        = if sep.isPrefixOf (c :: cs) then some 0
          else (firstOccurrence sep cs).map (fun m => m + 1) := by
      unfold firstOccurrence
      rw [List.length_cons, List.range_succ_eq_map, List.find?_cons, List.find?_map]
      cases hp : sep.isPrefixOf (c :: cs)
      · simp only [List.drop_zero, hp, Bool.false_eq_true, if_false]
        rfl
      · simp only [List.drop_zero, hp, if_true]
    rw [hstep, ← ih]
    rfl

/-- A non-empty separator does not occur in the empty string. -/
theorem indexChars_nil {sep : List Char} (h : sep ≠ []) : indexChars sep [] = none := by
  cases sep with
  | nil => exact absurd rfl h
  | cons a as => rfl

/-- Enough fuel: with a non-empty separator, any two bounds that are at least the length
of the string give the same pieces, so the bound `s.length` of `splitChars` never cuts
the loop short. -/
theorem splitLoop_fuel {sep : List Char} (h : sep ≠ []) (f1 f2 : Nat) (s : List Char)
    (h1 : s.length ≤ f1) (h2 : s.length ≤ f2) :
    splitLoop sep f1 s = splitLoop sep f2 s := by
  induction f1 generalizing f2 s with
  | zero =>
    have hs : s = [] := List.eq_nil_of_length_eq_zero (Nat.le_zero.mp h1)
    subst hs
    cases f2 with
    | zero => rfl
    | succ f2 => simp only [splitLoop, indexChars_nil h]
  | succ f1 ih =>
    cases f2 with
    | zero =>
      have hs : s = [] := List.eq_nil_of_length_eq_zero (Nat.le_zero.mp h2)
      subst hs
      simp only [splitLoop, indexChars_nil h]
    | succ f2 =>
      simp only [splitLoop]
      cases hi : indexChars sep s with
      | none => rfl
      | some m =>
        have hlen : 0 < sep.length := List.length_pos.mpr h
        have hd : (s.drop (m + sep.length)).length ≤ s.length - 1 := by
          rw [List.length_drop]; omega
        simp only
        rw [ih f2 _ (by omega) (by omega)]

/-- Splitting on a non-empty separator yields at least one piece, and the first piece is
the part before the first occurrence of the separator (the whole string when there is
none). -/
theorem splitChars_head {sep : List Char} (h : sep ≠ []) (s : List Char) :
    (splitChars s sep)[0]?
      = some (match firstOccurrence sep s with
              | some i => s.take i
              | none => s) := by
  have he : sep.isEmpty = false := by
    cases sep with
    | nil => exact absurd rfl h
    | cons a as => rfl
  rw [← indexChars_eq_firstOccurrence]
  simp only [splitChars, he, Bool.false_eq_true, if_false]
  cases s with
  | nil => simp only [List.length_nil, splitLoop, indexChars_nil h]; rfl
  | cons c cs =>
    simp only [List.length_cons, splitLoop]
    cases indexChars sep (c :: cs) <;> simp only [List.getElem?_cons_zero]

theorem Split_head (uri : String) : index (Split uri "://") 0 = .ok (schemeOf uri) := by
  have h := splitChars_head (show "://".data ≠ [] by decide) uri.data
  simp only [index, Split, List.getElem?_map, h, Option.map_some', schemeOf]
  cases firstOccurrence "://".data uri.data <;> rfl

theorem Println_shub :
    Println ["Shub not yet supported"] = Effect.stdout "Shub not yet supported\n" := by
  rfl

theorem Println_scheme (scheme : String) :
    Println [scheme, "Not a supported URI"]
      = Effect.stdout (scheme ++ " Not a supported URI\n") := by
  simp only [Println, String.intercalate, String.intercalate.go, String.append_assoc]
  rfl

/-- What `Run` does with one argument. -/
theorem Run_one (g : Globals) (a : String) :
    Run g [a] = .ok
      (if schemeOf a = "library" then
        [Effect.PullImage "" a g.PullLibraryURI g.force g.authToken]
      else if schemeOf a = "shub" then [Effect.stdout "Shub not yet supported\n"]
      else [Effect.stdout (schemeOf a ++ " Not a supported URI\n")]) := by
  simp only [Run, List.length_singleton, index, List.getElem?_cons_zero, bind, Except.bind,
    pure, Except.pure, SyCloudLibrary, Shub]
  have hh := Split_head a
  simp only [index] at hh
  cases hs : (Split a "://")[0]? with
  | none => rw [hs] at hh; cases hh
  | some sch =>
    rw [hs] at hh
    cases hh
    simp only [beq_iff_eq, Println_scheme, Println_shub]
    by_cases hl : schemeOf a = "library"
    · simp [hl]
    · by_cases hb : schemeOf a = "shub"
      · simp [hl, hb]
      · simp [hl, hb]

/-- What `Run` does with two arguments. -/
theorem Run_two (g : Globals) (n u : String) :
    Run g [n, u] = .ok
      (if schemeOf u = "library" then
        [Effect.PullImage n u g.PullLibraryURI g.force g.authToken]
      else if schemeOf u = "shub" then [Effect.stdout "Shub not yet supported\n"]
      else [Effect.stdout (schemeOf u ++ " Not a supported URI\n")]) := by
  simp only [Run, List.length_cons, List.length_nil, index, List.getElem?_cons_zero,
    List.getElem?_cons_succ, bind, Except.bind, pure, Except.pure, SyCloudLibrary, Shub]
  have hh := Split_head u
  simp only [index] at hh
  cases hs : (Split u "://")[0]? with
  | none => rw [hs] at hh; cases hh
  | some sch =>
    rw [hs] at hh
    cases hh
    simp only [beq_iff_eq, Println_scheme, Println_shub]
    by_cases hl : schemeOf u = "library"
    · simp [hl]
    · by_cases hb : schemeOf u = "shub"
      · simp [hl, hb]
      · simp [hl, hb]

/-- C9: for every argument list of length 1 or 2, with `uri` the last argument, `name`
the first of two arguments (empty when there is one) and the scheme the part of `uri`
before the first `"://"` (the whole of `uri` when there is none), `Run` does not fault
and performs exactly one effect: the call `PullImage name uri` when the scheme is
`"library"`, the line `Shub not yet supported` when it is `"shub"`, and the line
`<scheme> Not a supported URI` otherwise. -/
theorem Run_dispatch (g : Globals) (args : List String) (h1 : 1 ≤ args.length)
    (h2 : args.length ≤ 2) :
    ∃ name uri, ((args = [uri] ∧ name = "") ∨ args = [name, uri])
      ∧ Run g args = .ok
          (if schemeOf uri = "library" then
            [Effect.PullImage name uri g.PullLibraryURI g.force g.authToken]
          else if schemeOf uri = "shub" then [Effect.stdout "Shub not yet supported\n"]
          else [Effect.stdout (schemeOf uri ++ " Not a supported URI\n")]) := by
  match args, h1, h2 with
  | [a], _, _ => exact ⟨"", a, Or.inl ⟨rfl, rfl⟩, Run_one g a⟩
  | [n, u], _, _ => exact ⟨n, u, Or.inr rfl, Run_two g n u⟩

/-- Witness of C9 at the arguments `out.sif library://alpine`. -/
theorem Run_dispatch_witness :
    1 ≤ ["out.sif", "library://alpine"].length
    ∧ ["out.sif", "library://alpine"].length ≤ 2
    ∧ ∃ name uri, ((["out.sif", "library://alpine"] = [uri] ∧ name = "")
          ∨ ["out.sif", "library://alpine"] = [name, uri])
      ∧ Run ⟨"https://library.sylabs.io", false, ""⟩ ["out.sif", "library://alpine"] = .ok
          (if schemeOf uri = "library" then
            [Effect.PullImage name uri "https://library.sylabs.io" false ""]
          else if schemeOf uri = "shub" then [Effect.stdout "Shub not yet supported\n"]
          else [Effect.stdout (schemeOf uri ++ " Not a supported URI\n")]) :=
  ⟨by decide, by decide,
    Run_dispatch ⟨"https://library.sylabs.io", false, ""⟩ ["out.sif", "library://alpine"]
      (by decide) (by decide)⟩

/-- C10: under the precondition of `cobra.RangeArgs(1, 2)`, whatever the arguments
contain, `args[0]` is in range, `args[1]` is in range when it is read (two arguments),
`BaseURI[0]` is in range because splitting any string on a non-empty separator yields at
least one element, and `Run` ends without a fault. -/
theorem Run_no_fault (g : Globals) (args : List String) (h1 : 1 ≤ args.length)
    (h2 : args.length ≤ 2) :
    (∃ a0, index args 0 = .ok a0)
    ∧ (args.length = 2 → ∃ a1, index args 1 = .ok a1)
    ∧ (∀ s sep : String, sep ≠ "" → ∃ b0, index (Split s sep) 0 = .ok b0)
    ∧ ∃ effects, Run g args = .ok effects := by
  have hsplit : ∀ s sep : String, sep ≠ "" → ∃ b0, index (Split s sep) 0 = .ok b0 := by
    intro s sep hsep
    have hd : sep.data ≠ [] := by
      intro hd
      apply hsep
      cases sep
      simp only at hd
      subst hd
      rfl
    have h := splitChars_head hd s.data
    simp only [index, Split, List.getElem?_map, h, Option.map_some']
    exact ⟨_, rfl⟩
  match args, h1, h2 with
  | [a], _, _ =>
    exact ⟨⟨a, rfl⟩, fun h => absurd h (by simp), hsplit, ⟨_, Run_one g a⟩⟩
  | [n, u], _, _ =>
    exact ⟨⟨n, rfl⟩, fun _ => ⟨u, rfl⟩, hsplit, ⟨_, Run_two g n u⟩⟩

/-- Witness of C10 at the single empty argument. -/
theorem Run_no_fault_witness :
    1 ≤ [""].length ∧ [""].length ≤ 2
    ∧ (∃ a0, index [""] 0 = .ok a0)
    ∧ ([""].length = 2 → ∃ a1, index [""] 1 = .ok a1)
    ∧ (∀ s sep : String, sep ≠ "" → ∃ b0, index (Split s sep) 0 = .ok b0)
    ∧ ∃ effects, Run ⟨"https://library.sylabs.io", false, ""⟩ [""] = .ok effects :=
  ⟨by decide, by decide,
    Run_no_fault ⟨"https://library.sylabs.io", false, ""⟩ [""] (by decide) (by decide)⟩

end cli
